import Mathlib

/-!
Shallow embedding of the AAMU R.E.D. guest log (src/assets/js/app.js).

Strings are modelled as lists of characters (`Str`), timestamps as natural
numbers counting milliseconds since the Unix epoch.  The persisted
localStorage collection is modelled as a `List VisitRecord` threaded
explicitly through the operations.  Fallible handlers return the new
persisted collection together with an `Except LedgerError` result.
-/

abbrev Str := List Char

/-- AUTO_SIGNOUT_HOURS constant from app.js. -/
def AUTO_SIGNOUT_HOURS : Nat := 8

/-- The auto sign-out threshold in milliseconds,
    AUTO_SIGNOUT_HOURS * 60 * 60 * 1000 from ensureAutoSignOut. -/
def autoSignOutMs : Nat := AUTO_SIGNOUT_HOURS * 60 * 60 * 1000

/-- JavaScript whitespace as used by trim and the split regex, restricted to
    the ASCII whitespace characters that can appear in form input. -/
def isWs (c : Char) : Bool :=
  c == ' ' || c == '\t' || c == '\n' || c == '\r'

/-- s.trim(): drop whitespace from both ends. -/
def trimStr (s : Str) : Str :=
  ((s.dropWhile isWs).reverse.dropWhile isWs).reverse

/-- s.toLowerCase(), character by character (ASCII). -/
def lowerStr (s : Str) : Str :=
  s.map Char.toLower

/-- s.split(/\s+/): split on maximal runs of whitespace.  On the empty
    string JavaScript returns [""], and a leading/trailing run contributes
    an empty fragment, exactly as here.  A whitespace character followed by
    more whitespace belongs to a run whose boundary is produced when the
    run's last character is reached, so it contributes nothing by itself. -/
def splitWs : Str → List Str
  | [] => [[]]
  | [c] => if isWs c then [[], []] else [[c]]
  | c :: d :: cs =>
    if isWs c then
      if isWs d then splitWs (d :: cs) else [] :: splitWs (d :: cs)
    else (splitWs (d :: cs)).modifyHead (fun t => c :: t)

/-- arr.join(sep) for an array of strings. -/
def joinWith (sep : Str) : List Str → Str
  | [] => []
  | [t] => t
  | t :: ts => t ++ sep ++ joinWith sep ts

/-- normalizeName from app.js: full.trim().toLowerCase().split(/\s+/).join(" "). -/
def normalizeName (full : Str) : Str :=
  joinWith [' '] (splitWs (lowerStr (trimStr full)))

/-- makeNameKey from app.js: normalizeName(`${first} ${last}`). -/
def makeNameKey (first last : Str) : Str :=
  normalizeName (first ++ ' ' :: last)

/-- One guest visit record, fields as persisted in localStorage.
    `signOutAt = none` models the empty string (an open record). -/
structure VisitRecord where
  id : Nat
  firstName : Str
  lastName : Str
  agency : Str
  reason : Str
  otherDetails : Str
  signInAt : Nat
  signOutAt : Option Nat
  autoSignedOut : Bool
  nameKey : Str
deriving DecidableEq, Repr

inductive LedgerError where
  | validation
  | notFound
deriving DecidableEq, Repr

deriving instance DecidableEq for Except

/-- The body of the ensureAutoSignOut loop for one record: skip closed
    records; close an open record whose deadline signInAt + 8h has been
    reached, stamping the deadline instant and the auto flag. -/
def closeOne (now : Nat) (r : VisitRecord) : VisitRecord :=
  match r.signOutAt with
  | some _ => r
  | none =>
    let deadlineMs := r.signInAt + autoSignOutMs
    if deadlineMs ≤ now then
      { r with signOutAt := some deadlineMs, autoSignedOut := true }
    else r

/-- Whether the loop would close this record (and hence set `changed`). -/
def staleOpen (now : Nat) (r : VisitRecord) : Bool :=
  r.signOutAt.isNone && decide (r.signInAt + autoSignOutMs ≤ now)

/-- ensureAutoSignOut from app.js, acting on the persisted collection:
    returns the collection after the call together with whether saveLog
    was invoked (the `changed` flag). -/
def ensureAutoSignOut (stored : List VisitRecord) (now : Nat) :
    List VisitRecord × Bool :=
  let records := stored.map (closeOne now)
  let changed := stored.any (staleOpen now)
  (if changed then records else stored, changed)

/-- The collection after the auto-close pass (every record run through
    `closeOne`); equals the first component of `ensureAutoSignOut`. -/
def applyAutoCloseList (stored : List VisitRecord) (now : Nat) :
    List VisitRecord :=
  stored.map (closeOne now)

/-- findActiveByNameKey from app.js: scan the collection from the last
    index downwards and return the first (i.e. highest) index holding an
    open record whose nameKey equals the key, with that record. -/
def findActiveRev : List VisitRecord → Str → Option (Nat × VisitRecord)
  | [], _ => none
  | r :: rs, key =>
    match findActiveRev rs key with
    | some (i, x) => some (i + 1, x)
    | none =>
      if r.signOutAt.isNone && r.nameKey == key then some (0, r) else none

/-- The submit handler of initSignOut: rerun ensureAutoSignOut, normalize
    the typed name, reject an empty key, look up the most recent open
    match, close it with the current instant and persist. -/
def signOutSubmit (stored : List VisitRecord) (fullName : Str) (now : Nat) :
    List VisitRecord × Except LedgerError VisitRecord :=
  let rs := (ensureAutoSignOut stored now).1
  let nameKey := normalizeName fullName
  if nameKey = [] then (rs, .error .validation)
  else
    match findActiveRev rs nameKey with
    | none => (rs, .error .notFound)
    | some (i, r) =>
      let r' := { r with signOutAt := some now, autoSignedOut := false }
      (rs.set i r', .ok r')

/-- The record literal constructed by a successful sign-in submission:
    trimmed field values, fresh id from the environment, signInAt = now,
    empty signOutAt, autoSignedOut false, canonical nameKey, and
    otherDetails kept only for reason "Other". -/
def newRecord (firstNameRaw lastNameRaw agencyRaw reasonVal otherDetailsRaw :
    Str) (now freshId : Nat) : VisitRecord :=
  { id := freshId
    firstName := trimStr firstNameRaw
    lastName := trimStr lastNameRaw
    agency := trimStr agencyRaw
    reason := reasonVal
    otherDetails :=
      if reasonVal = ("Other").toList then trimStr otherDetailsRaw else []
    signInAt := now
    signOutAt := none
    autoSignedOut := false
    nameKey := makeNameKey (trimStr firstNameRaw) (trimStr lastNameRaw) }

/-- The submit handler of initSignIn: trim the field values, reject an
    empty required field (or a missing "Other" detail), build the new
    record (fresh id supplied by the environment via crypto.randomUUID)
    and append it to the collection. -/
def signInSubmit (stored : List VisitRecord)
    (firstNameRaw lastNameRaw agencyRaw reasonVal otherDetailsRaw : Str)
    (now : Nat) (freshId : Nat) :
    List VisitRecord × Except LedgerError VisitRecord :=
  if trimStr firstNameRaw = [] ∨ trimStr lastNameRaw = [] ∨
      trimStr agencyRaw = [] then
    (stored, .error .validation)
  else if reasonVal = ("Other").toList ∧ trimStr otherDetailsRaw = [] then
    (stored, .error .validation)
  else
    let record :=
      newRecord firstNameRaw lastNameRaw agencyRaw reasonVal otherDetailsRaw
        now freshId
    (stored ++ [record], .ok record)

/-- The whole sign-in page flow: initSignIn runs ensureAutoSignOut once at
    page initialization (time tInit); the submit handler later runs at
    time tSubmit without reapplying the policy. -/
def initSignInFlow (stored : List VisitRecord) (tInit : Nat)
    (firstNameRaw lastNameRaw agencyRaw reasonVal otherDetailsRaw : Str)
    (tSubmit : Nat) (freshId : Nat) :
    List VisitRecord × Except LedgerError VisitRecord :=
  let s1 := (ensureAutoSignOut stored tInit).1
  signInSubmit s1 firstNameRaw lastNameRaw agencyRaw reasonVal otherDetailsRaw
    tSubmit freshId

/-- needle-as-prefix test used to implement String.includes. -/
def startsWithStr : Str → Str → Bool
  | _, [] => true
  | [], _ :: _ => false
  | c :: cs, d :: ds => c == d && startsWithStr cs ds

/-- hay.includes(needle): contiguous-substring test. -/
def hasSub (hay needle : Str) : Bool :=
  match hay with
  | [] => needle.isEmpty
  | _ :: cs => startsWithStr hay needle || hasSub cs needle

/-- The search haystack of initRecords' render:
    `${firstName} ${lastName} ${agency} ${reason} ${otherDetails}`. -/
def hayOf (r : VisitRecord) : Str :=
  r.firstName ++ ' ' :: r.lastName ++ ' ' :: r.agency ++ ' ' :: r.reason ++
    ' ' :: r.otherDetails

/-- The render function of initRecords: rerun ensureAutoSignOut, trim and
    lower-case the search box text, reverse the collection (newest first)
    and, when the query is non-empty, keep the records whose lower-cased
    haystack contains it. -/
def renderList (stored : List VisitRecord) (searchText : Str) (now : Nat) :
    List VisitRecord :=
  let stored1 := (ensureAutoSignOut stored now).1
  let q := lowerStr (trimStr searchText)
  let ordered := stored1.reverse
  if q = [] then ordered
  else ordered.filter (fun r => hasSub (lowerStr (hayOf r)) q)

/-- The spec's wording of the Name Normalizer's collapsing step: every
    run of whitespace becomes a single space (emitted when the run's last
    character is reached; earlier characters of a run contribute
    nothing). -/
def collapseRunsToSpace : Str → Str
  | [] => []
  | [c] => if isWs c then [' '] else [c]
  | c :: d :: cs =>
    if isWs c then
      if isWs d then collapseRunsToSpace (d :: cs)
      else ' ' :: collapseRunsToSpace (d :: cs)
    else c :: collapseRunsToSpace (d :: cs)

/-- The Name Normalizer as the spec words it: trims leading/trailing
    whitespace, lower-cases, collapses any run of internal whitespace to a
    single space. -/
def specNormalize (s : Str) : Str :=
  collapseRunsToSpace (lowerStr (trimStr s))

/-- The record-listing filter criterion exactly as claim C8 words it: the
    (untrimmed) filter text is a case-insensitive substring of the
    concatenation of the record's first name, last name, agency, reason
    and other-details. -/
def claimFilterPred (text : Str) (r : VisitRecord) : Bool :=
  hasSub (lowerStr (hayOf r)) (lowerStr text)

/-- escapeCSV from toCSV: wrap in double quotes, doubling the internal
    double quotes, exactly when the field contains a comma, a double quote
    or a newline. -/
def replaceQuotes : Str → Str
  | [] => []
  | c :: cs =>
    if c == '"' then '"' :: '"' :: replaceQuotes cs else c :: replaceQuotes cs

def escapeCSV (s : Str) : Str :=
  if s.any (fun c => c == '"' || c == ',' || c == '\n') then
    '"' :: replaceQuotes s ++ ['"']
  else s

/-- Left-pad a decimal rendering of n with zeros to width w. -/
def padNum (w n : Nat) : Str :=
  let ds := Nat.toDigits 10 n
  List.replicate (w - ds.length) '0' ++ ds

/-- Gregorian civil date (year, month, day) from a count of days since
    1970-01-01, as computed by JavaScript Date for non-negative times. -/
def civilFromDays (z0 : Nat) : Nat × Nat × Nat :=
  let z := z0 + 719468
  let era := z / 146097
  let doe := z % 146097
  let yoe := (doe - doe / 1460 + doe / 36524 - doe / 146096) / 365
  let y := yoe + era * 400
  let doy := doe - (365 * yoe + yoe / 4 - yoe / 100)
  let mp := (5 * doy + 2) / 153
  let d := doy - (153 * mp + 2) / 5 + 1
  let m := if mp < 10 then mp + 3 else mp - 9
  (if m ≤ 2 then y + 1 else y, m, d)

/-- new Date(ms).toISOString(): the fixed 24-character UTC form
    YYYY-MM-DDTHH:MM:SS.mmmZ. -/
def isoOfMs (ms : Nat) : Str :=
  let msPart := ms % 1000
  let totalSec := ms / 1000
  let s := totalSec % 60
  let totalMin := totalSec / 60
  let mi := totalMin % 60
  let totalHr := totalMin / 60
  let h := totalHr % 24
  let days := totalHr / 24
  let ymd := civilFromDays days
  padNum 4 ymd.1 ++ '-' :: padNum 2 ymd.2.1 ++ '-' :: padNum 2 ymd.2.2 ++
    'T' :: padNum 2 h ++ ':' :: padNum 2 mi ++ ':' :: padNum 2 s ++
    '.' :: padNum 3 msPart ++ ['Z']

/-- The serialized sign-out column: r.signOutAt || "". -/
def signOutField (r : VisitRecord) : Str :=
  match r.signOutAt with
  | none => []
  | some t => isoOfMs t

/-- One data row of toCSV: the eight escaped fields joined with commas. -/
def csvRow (r : VisitRecord) : Str :=
  joinWith ((",").toList)
    [escapeCSV r.firstName,
     escapeCSV r.lastName,
     escapeCSV r.agency,
     escapeCSV r.reason,
     escapeCSV r.otherDetails,
     escapeCSV (isoOfMs r.signInAt),
     escapeCSV (signOutField r),
     escapeCSV (if r.autoSignedOut then ("YES").toList else ("NO").toList)]

/-- toCSV from app.js: the joined header cells, then one row per record in
    stored order, joined with newlines. -/
def toCSV (records : List VisitRecord) : Str :=
  let header :=
    joinWith ((",").toList)
      [("first_name").toList,
       ("last_name").toList,
       ("agency_institution").toList,
       ("reason").toList,
       ("other_details").toList,
       ("sign_in").toList,
       ("sign_out").toList,
       ("auto_signed_out").toList]
  joinWith (("\n").toList) (header :: records.map csvRow)

/-! Concrete records used by witness and counterexample theorems. -/

/-- Jane Doe, signed in at T0 = 0, open. -/
def recA : VisitRecord :=
  { id := 1
    firstName := ("Jane").toList
    lastName := ("Doe").toList
    agency := ("Acme").toList
    reason := ("Meeting").toList
    otherDetails := []
    signInAt := 0
    signOutAt := none
    autoSignedOut := false
    nameKey := ("jane doe").toList }

/-- jane doe (same normalized key), signed in at T1 = 1000, open. -/
def recB : VisitRecord :=
  { recA with
    id := 2
    firstName := ("jane").toList
    lastName := ("doe").toList
    agency := ("Other Co").toList
    reason := ("Delivery").toList
    signInAt := 1000 }

/-- A record that is already closed. -/
def recC : VisitRecord :=
  { recA with id := 3, signOutAt := some 500, autoSignedOut := true }

/-- An open record whose first name starts the search haystack. -/
def recD : VisitRecord :=
  { recA with
    id := 4
    firstName := ("abc").toList
    lastName := ("d").toList
    agency := ("x").toList
    nameKey := ("abc d").toList }

/-! Helper lemmas. -/

theorem closeOne_of_not_stale (now : Nat) (r : VisitRecord)
    (h : staleOpen now r = false) : closeOne now r = r := by
  cases hs : r.signOutAt with
  | some t => simp [closeOne, hs]
  | none =>
    simp [staleOpen, hs] at h
    simp [closeOne, hs]
    omega

theorem ensureAutoSignOut_fst (stored : List VisitRecord) (now : Nat) :
    (ensureAutoSignOut stored now).1 = applyAutoCloseList stored now := by
  by_cases h : stored.any (staleOpen now)
  · simp [ensureAutoSignOut, applyAutoCloseList, h]
  · simp [ensureAutoSignOut, applyAutoCloseList, h]
    rw [Bool.not_eq_true, List.any_eq_false] at h
    exact ((List.map_congr_left fun r hr =>
      closeOne_of_not_stale now r (by simpa using h r hr)).trans
        stored.map_id).symm

theorem ensureAutoSignOut_snd (stored : List VisitRecord) (now : Nat) :
    (ensureAutoSignOut stored now).2 = stored.any (staleOpen now) := by
  simp [ensureAutoSignOut]

theorem closeOne_eq (now : Nat) (r : VisitRecord) :
    closeOne now r =
      if r.signOutAt = none ∧ r.signInAt + autoSignOutMs ≤ now then
        { r with signOutAt := some (r.signInAt + autoSignOutMs),
                 autoSignedOut := true }
      else r := by
  cases hs : r.signOutAt with
  | some t => simp [closeOne, hs]
  | none =>
    by_cases hd : r.signInAt + autoSignOutMs ≤ now
    · simp [closeOne, hs, hd]
    · simp [closeOne, hs, hd]

/-! Claim theorems. -/

/-- Claim C2: for every record and every time, an open record whose 8-hour
    deadline has been reached is closed at exactly the deadline instant with
    autoSignedOut set, and every other record is left unchanged by the
    auto-close pass. -/
theorem autoClose_per_record (rs : List VisitRecord) (now : Nat) (i : Nat)
    (r : VisitRecord) (h : rs[i]? = some r) :
    (applyAutoCloseList rs now)[i]? = some
      (if r.signOutAt = none ∧ r.signInAt + autoSignOutMs ≤ now then
        { r with signOutAt := some (r.signInAt + autoSignOutMs),
                 autoSignedOut := true }
       else r) := by
  rw [applyAutoCloseList, List.getElem?_map, h]
  simp only [Option.map_some']
  rw [closeOne_eq]

/-- Witness for C2: the spec scenario — a record signed in at T0 = 0 queried
    at T0 + 8h + 1s is closed with signOutAt = T0 + 8h and the auto flag,
    while a fresh record is untouched. -/
theorem autoClose_per_record_inst :
    (applyAutoCloseList [recA, recB] 28801000)[0]? = some
      (if recA.signOutAt = none ∧ recA.signInAt + autoSignOutMs ≤ 28801000 then
        { recA with signOutAt := some (recA.signInAt + autoSignOutMs),
                    autoSignedOut := true }
       else recA) :=
  autoClose_per_record [recA, recB] 28801000 0 recA (by decide)

/-- Claim C10: the auto-close pass never adds, removes, duplicates or
    reorders records (same length, per-index correspondence), it preserves
    every field other than signOutAt and autoSignedOut, and it writes the
    collection back exactly when some open record's deadline has passed. -/
theorem autoClose_frame (stored : List VisitRecord) (now : Nat) :
    (ensureAutoSignOut stored now).1.length = stored.length ∧
    (∀ (i : Nat) (r : VisitRecord), stored[i]? = some r → ∃ r' : VisitRecord,
      (ensureAutoSignOut stored now).1[i]? = some r' ∧
      r'.id = r.id ∧ r'.firstName = r.firstName ∧ r'.lastName = r.lastName ∧
      r'.agency = r.agency ∧ r'.reason = r.reason ∧
      r'.otherDetails = r.otherDetails ∧ r'.signInAt = r.signInAt ∧
      r'.nameKey = r.nameKey) ∧
    ((ensureAutoSignOut stored now).2 = true ↔
      ∃ r ∈ stored, r.signOutAt = none ∧ r.signInAt + autoSignOutMs ≤ now) ∧
    ((ensureAutoSignOut stored now).2 = false →
      (ensureAutoSignOut stored now).1 = stored) := by
  refine ⟨?_, ?_, ?_, ?_⟩
  · rw [ensureAutoSignOut_fst, applyAutoCloseList, List.length_map]
  · intro i r h
    refine ⟨closeOne now r, ?_, ?_⟩
    · rw [ensureAutoSignOut_fst, applyAutoCloseList, List.getElem?_map, h]
      simp only [Option.map_some']
    · rw [closeOne_eq]
      by_cases hc : r.signOutAt = none ∧ r.signInAt + autoSignOutMs ≤ now <;>
        simp [hc]
  · rw [ensureAutoSignOut_snd, List.any_eq_true]
    constructor
    · rintro ⟨r, hr, hs⟩
      simp [staleOpen, Option.isNone_iff_eq_none] at hs
      exact ⟨r, hr, hs⟩
    · rintro ⟨r, hr, h1, h2⟩
      exact ⟨r, hr, by simp [staleOpen, Option.isNone_iff_eq_none, h1, h2]⟩
  · intro h
    rw [ensureAutoSignOut_snd] at h
    simp [ensureAutoSignOut, h]

/-- Witness for C10: the frame conditions evaluated on a concrete
    collection holding one open and one closed record. -/
theorem autoClose_frame_inst :
    (ensureAutoSignOut [recA, recC] 28801000).1.length = 2 ∧
    (∃ r' : VisitRecord,
      (ensureAutoSignOut [recA, recC] 28801000).1[0]? = some r' ∧
      r'.id = recA.id ∧ r'.firstName = recA.firstName ∧
      r'.lastName = recA.lastName ∧ r'.agency = recA.agency ∧
      r'.reason = recA.reason ∧ r'.otherDetails = recA.otherDetails ∧
      r'.signInAt = recA.signInAt ∧ r'.nameKey = recA.nameKey) ∧
    ((ensureAutoSignOut [recA, recC] 28801000).2 = true ↔
      ∃ r ∈ [recA, recC],
        r.signOutAt = none ∧ r.signInAt + autoSignOutMs ≤ 28801000) :=
  ⟨(autoClose_frame [recA, recC] 28801000).1,
   (autoClose_frame [recA, recC] 28801000).2.1 0 recA (by decide),
   (autoClose_frame [recA, recC] 28801000).2.2.1⟩

theorem findActiveRev_eq_none (rs : List VisitRecord) (key : Str) :
    findActiveRev rs key = none ↔
      ∀ r ∈ rs, ¬(r.signOutAt = none ∧ r.nameKey = key) := by
  induction rs with
  | nil => simp [findActiveRev]
  | cons r rs ih =>
    cases hf : findActiveRev rs key with
    | some p =>
      simp only [findActiveRev, hf, List.mem_cons, forall_eq_or_imp]
      constructor
      · intro h; cases h
      · rintro ⟨-, hall⟩
        rw [ih.mpr hall] at hf
        cases hf
    | none =>
      simp only [findActiveRev, hf, List.mem_cons, forall_eq_or_imp]
      by_cases hm : r.signOutAt.isNone && r.nameKey == key
      · rw [if_pos hm]
        simp only [Bool.and_eq_true, Option.isNone_iff_eq_none,
          beq_iff_eq] at hm
        exact iff_of_false (by simp) (fun hall => hall.1 hm)
      · rw [if_neg hm]
        refine iff_of_true rfl ⟨?_, ih.mp hf⟩
        intro hc
        exact hm (by simp [Option.isNone_iff_eq_none, hc.1, hc.2])

theorem findActiveRev_sound (rs : List VisitRecord) (key : Str) (i : Nat)
    (x : VisitRecord) (h : findActiveRev rs key = some (i, x)) :
    rs[i]? = some x ∧ x.signOutAt = none ∧ x.nameKey = key := by
  induction rs generalizing i with
  | nil => simp [findActiveRev] at h
  | cons r rs ih =>
    cases hf : findActiveRev rs key with
    | some p =>
      obtain ⟨j, y⟩ := p
      rw [findActiveRev, hf] at h
      simp only [Option.some_inj, Prod.mk.injEq] at h
      obtain ⟨hi, hx⟩ := h
      subst hx
      obtain ⟨hg, ho, hk⟩ := ih j hf
      subst hi
      exact ⟨by simpa using hg, ho, hk⟩
    | none =>
      rw [findActiveRev, hf] at h
      by_cases hm : r.signOutAt.isNone && r.nameKey == key
      · rw [if_pos hm] at h
        simp only [Option.some_inj, Prod.mk.injEq] at h
        obtain ⟨hi, hx⟩ := h
        subst hx
        subst hi
        simp only [Bool.and_eq_true, Option.isNone_iff_eq_none,
          beq_iff_eq] at hm
        exact ⟨by simp, hm.1, hm.2⟩
      · rw [if_neg hm] at h
        cases h

theorem findActiveRev_last (rs : List VisitRecord) (key : Str) (i : Nat)
    (r : VisitRecord) (h1 : rs[i]? = some r) (h2 : r.signOutAt = none)
    (h3 : r.nameKey = key)
    (h4 : ∀ r' ∈ rs.drop (i + 1), ¬(r'.signOutAt = none ∧ r'.nameKey = key)) :
    findActiveRev rs key = some (i, r) := by
  induction rs generalizing i with
  | nil => simp at h1
  | cons a rs ih =>
    cases i with
    | zero =>
      simp only [List.getElem?_cons_zero, Option.some_inj] at h1
      subst h1
      have hnone : findActiveRev rs key = none :=
        (findActiveRev_eq_none rs key).mpr (by simpa using h4)
      rw [findActiveRev, hnone, if_pos]
      simp [Option.isNone_iff_eq_none, h2, h3]
    | succ j =>
      have h1' : rs[j]? = some r := by simpa using h1
      have h4' : ∀ r' ∈ rs.drop (j + 1),
          ¬(r'.signOutAt = none ∧ r'.nameKey = key) := by
        simpa using h4
      rw [findActiveRev, ih j h1' h4']

/-- Claim C1: when the normalized key of a sign-out request matches at
    least one open record, the handler closes exactly the most recently
    created open match — the record at the highest index that is open with
    that nameKey after the auto-close pass — stamping signOutAt = now and
    autoSignedOut = false and persisting, while every record at any other
    index (in particular every earlier open record with the same key) is
    left exactly as the auto-close pass left it. -/
theorem signOut_closes_most_recent (stored : List VisitRecord)
    (fullName : Str) (now : Nat) (i : Nat) (r : VisitRecord)
    (hkey : normalizeName fullName ≠ [])
    (h1 : (applyAutoCloseList stored now)[i]? = some r)
    (h2 : r.signOutAt = none)
    (h3 : r.nameKey = normalizeName fullName)
    (h4 : ∀ r' ∈ (applyAutoCloseList stored now).drop (i + 1),
      ¬(r'.signOutAt = none ∧ r'.nameKey = normalizeName fullName)) :
    signOutSubmit stored fullName now =
      ((applyAutoCloseList stored now).set i
        { r with signOutAt := some now, autoSignedOut := false },
       .ok { r with signOutAt := some now, autoSignedOut := false }) ∧
    ∀ (j : Nat), j ≠ i →
      ((applyAutoCloseList stored now).set i
        { r with signOutAt := some now, autoSignedOut := false })[j]? =
      (applyAutoCloseList stored now)[j]? := by
  have hfind := findActiveRev_last (applyAutoCloseList stored now)
    (normalizeName fullName) i r h1 h2 h3 h4
  constructor
  · rw [signOutSubmit, ensureAutoSignOut_fst, hfind]
    rw [if_neg hkey]
  · intro j hj
    exact List.getElem?_set_ne hj.symm

/-- Witness for C1: the spec's Jane Doe scenario.  Both open records share
    the key "jane doe"; signing out "Jane Doe" at T2 = 2000 closes the one
    created at T1 = 1000 (recB) and leaves the T0 record alone. -/
theorem signOut_closes_most_recent_inst :
    signOutSubmit [recA, recB] (("Jane Doe").toList) 2000 =
      ((applyAutoCloseList [recA, recB] 2000).set 1
        { recB with signOutAt := some 2000, autoSignedOut := false },
       .ok { recB with signOutAt := some 2000, autoSignedOut := false }) :=
  (signOut_closes_most_recent [recA, recB] (("Jane Doe").toList) 2000 1 recB
    (by decide) (by decide) (by decide) (by decide) (by decide)).1

/-- Claim C7: closing is terminal.  The auto-close pass leaves every closed
    record exactly unchanged; the sign-out lookup only ever selects an open
    record; and both the sign-out and the sign-in handlers leave every
    already-closed record exactly unchanged. -/
theorem closed_records_immutable :
    (∀ (rs : List VisitRecord) (now i : Nat) (r : VisitRecord) (t : Nat),
      rs[i]? = some r → r.signOutAt = some t →
      (applyAutoCloseList rs now)[i]? = some r) ∧
    (∀ (rs : List VisitRecord) (key : Str) (i : Nat) (x : VisitRecord),
      findActiveRev rs key = some (i, x) → x.signOutAt = none) ∧
    (∀ (stored : List VisitRecord) (fullName : Str) (now i : Nat)
      (r : VisitRecord) (t : Nat),
      (applyAutoCloseList stored now)[i]? = some r → r.signOutAt = some t →
      (signOutSubmit stored fullName now).1[i]? = some r) ∧
    (∀ (stored : List VisitRecord) (f l a rv od : Str) (now freshId i : Nat)
      (r : VisitRecord) (t : Nat),
      stored[i]? = some r → r.signOutAt = some t →
      (signInSubmit stored f l a rv od now freshId).1[i]? = some r) := by
  refine ⟨?_, ?_, ?_, ?_⟩
  · intro rs now i r t h hc
    rw [applyAutoCloseList, List.getElem?_map, h]
    simp [closeOne, hc]
  · intro rs key i x h
    exact (findActiveRev_sound rs key i x h).2.1
  · intro stored fullName now i r t h hc
    rw [signOutSubmit, ensureAutoSignOut_fst]
    by_cases hk : normalizeName fullName = []
    · rw [if_pos hk]
      exact h
    · rw [if_neg hk]
      cases hf : findActiveRev (applyAutoCloseList stored now)
          (normalizeName fullName) with
      | none => exact h
      | some p =>
        obtain ⟨j, x⟩ := p
        obtain ⟨hg, ho, -⟩ := findActiveRev_sound _ _ _ _ hf
        have hij : j ≠ i := by
          intro he
          subst he
          rw [h] at hg
          cases hg
          rw [hc] at ho
          cases ho
        rw [List.getElem?_set_ne hij]
        exact h
  · intro stored f l a rv od now freshId i r t h hc
    rw [signInSubmit]
    by_cases hv1 : trimStr f = [] ∨ trimStr l = [] ∨ trimStr a = []
    · rw [if_pos hv1]
      exact h
    · rw [if_neg hv1]
      by_cases hv2 : rv = ("Other").toList ∧ trimStr od = []
      · rw [if_pos hv2]
        exact h
      · rw [if_neg hv2]
        have hlt : i < stored.length := by
          rcases List.getElem?_eq_some.mp h with ⟨hl, -⟩
          exact hl
        rw [List.getElem?_append, if_pos hlt]
        exact h

/-- Witness for C7: the closed record recC is untouched by a stale-closing
    auto-close pass, by a sign-out that closes a different record, and by a
    successful sign-in; and the sign-out lookup never picks a closed
    record. -/
theorem closed_records_immutable_inst :
    (applyAutoCloseList [recC] 28801000)[0]? = some recC ∧
    recA.signOutAt = none ∧
    (signOutSubmit [recC, recB] (("Jane Doe").toList) 2000).1[0]? =
      some recC ∧
    (signInSubmit [recC] (("Al").toList) (("Bo").toList) (("X").toList)
      (("Meeting").toList) [] 5 9).1[0]? = some recC :=
  ⟨closed_records_immutable.1 [recC] 28801000 0 recC 500 (by decide)
    (by decide),
   closed_records_immutable.2.1 [recA] (("jane doe").toList) 0 recA
    (by decide),
   closed_records_immutable.2.2.1 [recC, recB] (("Jane Doe").toList) 2000 0
    recC 500 (by decide) (by decide),
   closed_records_immutable.2.2.2 [recC] (("Al").toList) (("Bo").toList)
    (("X").toList) (("Meeting").toList) [] 5 9 0 recC 500 (by decide)
    (by decide)⟩

theorem signInSubmit_eq_append (stored : List VisitRecord)
    (f l a rv od : Str) (now freshId : Nat)
    (h1 : trimStr f ≠ []) (h2 : trimStr l ≠ []) (h3 : trimStr a ≠ [])
    (h4 : rv = ("Other").toList → trimStr od ≠ []) :
    signInSubmit stored f l a rv od now freshId =
      (stored ++ [newRecord f l a rv od now freshId],
       .ok (newRecord f l a rv od now freshId)) := by
  have hca : ¬(trimStr f = [] ∨ trimStr l = [] ∨ trimStr a = []) := by
    rintro (hb | hb | hb)
    exacts [h1 hb, h2 hb, h3 hb]
  have hcb : ¬(rv = ("Other").toList ∧ trimStr od = []) := by
    rintro ⟨hb1, hb2⟩
    exact h4 hb1 hb2
  rw [signInSubmit, if_neg hca, if_neg hcb]

/-- Claim C3: a successful sign-in appends one record at the end of the
    collection and returns it; the record carries the supplied fresh id,
    the trimmed field values, nameKey = normalize(first ++ " " ++ last),
    signInAt = now, an empty signOutAt, autoSignedOut = false, and
    otherDetails that is non-empty exactly when the reason is "Other";
    every prior record is unchanged. -/
theorem signIn_appends_record (stored : List VisitRecord)
    (f l a rv od : Str) (now freshId : Nat)
    (h1 : trimStr f ≠ []) (h2 : trimStr l ≠ []) (h3 : trimStr a ≠ [])
    (h4 : rv = ("Other").toList → trimStr od ≠ []) :
    ∃ rec : VisitRecord,
      signInSubmit stored f l a rv od now freshId =
        (stored ++ [rec], .ok rec) ∧
      rec.id = freshId ∧
      rec.firstName = trimStr f ∧ rec.lastName = trimStr l ∧
      rec.agency = trimStr a ∧ rec.reason = rv ∧
      rec.signInAt = now ∧ rec.signOutAt = none ∧
      rec.autoSignedOut = false ∧
      rec.nameKey = normalizeName (trimStr f ++ ' ' :: trimStr l) ∧
      (rv = ("Other").toList → rec.otherDetails = trimStr od ∧
        rec.otherDetails ≠ []) ∧
      (rv ≠ ("Other").toList → rec.otherDetails = []) ∧
      (∀ (i : Nat), i < stored.length →
        (stored ++ [rec])[i]? = stored[i]?) := by
  refine ⟨newRecord f l a rv od now freshId,
    signInSubmit_eq_append stored f l a rv od now freshId h1 h2 h3 h4,
    rfl, rfl, rfl, rfl, rfl, rfl, rfl, rfl, rfl, ?_, ?_, ?_⟩
  · intro hrv
    show (if rv = ("Other").toList then trimStr od else []) = trimStr od ∧
      (if rv = ("Other").toList then trimStr od else []) ≠ []
    rw [if_pos hrv]
    exact ⟨rfl, h4 hrv⟩
  · intro hrv
    show (if rv = ("Other").toList then trimStr od else []) = []
    rw [if_neg hrv]
  · intro i hi
    rw [List.getElem?_append, if_pos hi]

/-- Witness for C3: a concrete successful sign-in with reason "Other". -/
theorem signIn_appends_record_inst :
    ∃ rec : VisitRecord,
      signInSubmit [recA] (("  Al ").toList) (("Bo").toList)
          (("X Corp").toList) (("Other").toList) ((" tour ").toList) 5 9 =
        ([recA] ++ [rec], .ok rec) ∧
      rec.id = 9 ∧
      rec.firstName = trimStr (("  Al ").toList) ∧
      rec.lastName = trimStr (("Bo").toList) ∧
      rec.agency = trimStr (("X Corp").toList) ∧
      rec.reason = ("Other").toList ∧
      rec.signInAt = 5 ∧ rec.signOutAt = none ∧
      rec.autoSignedOut = false ∧
      rec.nameKey = normalizeName
        (trimStr (("  Al ").toList) ++ ' ' :: trimStr (("Bo").toList)) ∧
      (("Other").toList = ("Other").toList →
        rec.otherDetails = trimStr ((" tour ").toList) ∧
        rec.otherDetails ≠ []) ∧
      (("Other").toList ≠ ("Other").toList → rec.otherDetails = []) ∧
      (∀ (i : Nat), i < [recA].length →
        ([recA] ++ [rec])[i]? = [recA][i]?) :=
  signIn_appends_record [recA] (("  Al ").toList) (("Bo").toList)
    (("X Corp").toList) (("Other").toList) ((" tour ").toList) 5 9
    (by decide) (by decide) (by decide) (by decide)

/-- Claim C4 (amended): a failing sign-in leaves the collection exactly
    unchanged; a failing sign-out leaves it exactly as the auto-close pass
    run at the start of the handler leaves it (the handler may close and
    persist stale records even when the sign-out itself then fails); the
    failure kinds are: ValidationError when a required trimmed sign-in
    field is empty or "Other" lacks details, ValidationError when the
    normalized sign-out key is empty, NotFoundError when no open record
    matches the key.  No record is created or explicitly signed out in any
    failure case. -/
theorem failures_leave_store (stored : List VisitRecord)
    (f l a rv od : Str) (now freshId : Nat) (fullName : Str) (now2 : Nat) :
    ((trimStr f = [] ∨ trimStr l = [] ∨ trimStr a = [] ∨
        (rv = ("Other").toList ∧ trimStr od = [])) →
      signInSubmit stored f l a rv od now freshId =
        (stored, .error .validation)) ∧
    (normalizeName fullName = [] →
      signOutSubmit stored fullName now2 =
        (applyAutoCloseList stored now2, .error .validation)) ∧
    (normalizeName fullName ≠ [] →
      (∀ r ∈ applyAutoCloseList stored now2,
        ¬(r.signOutAt = none ∧ r.nameKey = normalizeName fullName)) →
      signOutSubmit stored fullName now2 =
        (applyAutoCloseList stored now2, .error .notFound)) := by
  refine ⟨?_, ?_, ?_⟩
  · intro hbad
    rw [signInSubmit]
    by_cases hv1 : trimStr f = [] ∨ trimStr l = [] ∨ trimStr a = []
    · rw [if_pos hv1]
    · rw [if_neg hv1]
      rcases hbad with hb | hb | hb | hb
      · exact absurd (Or.inl hb) hv1
      · exact absurd (Or.inr (Or.inl hb)) hv1
      · exact absurd (Or.inr (Or.inr hb)) hv1
      · rw [if_pos hb]
  · intro hk
    rw [signOutSubmit, ensureAutoSignOut_fst, if_pos hk]
  · intro hk hall
    rw [signOutSubmit, ensureAutoSignOut_fst, if_neg hk,
      (findActiveRev_eq_none _ _).mpr hall]

/-- Witness for C4 (amended): a sign-in missing its first name, a sign-out
    with a whitespace-only name, and a sign-out for an unknown name, on
    concrete collections. -/
theorem failures_leave_store_inst :
    signInSubmit [recA] (("   ").toList) (("Bo").toList) (("X").toList)
        (("Meeting").toList) [] 5 9 = ([recA], .error .validation) ∧
    signOutSubmit [recA] ((" ").toList) 100 =
      (applyAutoCloseList [recA] 100, .error .validation) ∧
    signOutSubmit [recA] (("zz").toList) 100 =
      (applyAutoCloseList [recA] 100, .error .notFound) :=
  ⟨(failures_leave_store [recA] (("   ").toList) (("Bo").toList)
      (("X").toList) (("Meeting").toList) [] 5 9 ((" ").toList) 100).1
      (Or.inl (by decide)),
   (failures_leave_store [recA] (("   ").toList) (("Bo").toList)
      (("X").toList) (("Meeting").toList) [] 5 9 ((" ").toList) 100).2.1
      (by decide),
   (failures_leave_store [recA] (("   ").toList) (("Bo").toList)
      (("X").toList) (("Meeting").toList) [] 5 9 (("zz").toList) 100).2.2
      (by decide) (by decide)⟩

/-- Counterexample to C4 as stated: a sign-out for an unknown name fails
    with NotFoundError, yet the persisted collection changes, because the
    handler first runs the auto-close pass, which closes the stale open
    record recA and persists. -/
theorem failures_leave_store_cex :
    (signOutSubmit [recA] (("zz").toList) 28801000).2 =
      Except.error LedgerError.notFound ∧
    (signOutSubmit [recA] (("zz").toList) 28801000).1 ≠ [recA] := by
  decide

theorem initSignInFlow_eq (stored : List VisitRecord) (tInit : Nat)
    (f l a rv od : Str) (tSubmit freshId : Nat)
    (h1 : trimStr f ≠ []) (h2 : trimStr l ≠ []) (h3 : trimStr a ≠ [])
    (h4 : rv = ("Other").toList → trimStr od ≠ []) :
    initSignInFlow stored tInit f l a rv od tSubmit freshId =
      (applyAutoCloseList stored tInit ++
        [newRecord f l a rv od tSubmit freshId],
       .ok (newRecord f l a rv od tSubmit freshId)) := by
  rw [initSignInFlow, ensureAutoSignOut_fst]
  exact signInSubmit_eq_append _ f l a rv od tSubmit freshId h1 h2 h3 h4

/-- Claim C9 (amended): the sign-in page applies the Auto-Close Policy
    once, at page initialization time tInit, and persists its effect; the
    submit handler does not reapply it, so a successful sign-in appends
    the new record to the collection as auto-closed at tInit.  Every open
    record whose deadline had passed at tInit is closed (with the deadline
    timestamp and the auto flag) in the persisted result; deadlines that
    pass between page initialization and submission are not enforced by
    the sign-in flow. -/
theorem signIn_autoclose_at_init (stored : List VisitRecord) (tInit : Nat)
    (f l a rv od : Str) (tSubmit freshId : Nat)
    (h1 : trimStr f ≠ []) (h2 : trimStr l ≠ []) (h3 : trimStr a ≠ [])
    (h4 : rv = ("Other").toList → trimStr od ≠ []) :
    initSignInFlow stored tInit f l a rv od tSubmit freshId =
      (applyAutoCloseList stored tInit ++
        [newRecord f l a rv od tSubmit freshId],
       .ok (newRecord f l a rv od tSubmit freshId)) ∧
    (∀ (i : Nat) (r : VisitRecord), stored[i]? = some r →
      r.signOutAt = none → r.signInAt + autoSignOutMs ≤ tInit →
      (initSignInFlow stored tInit f l a rv od tSubmit freshId).1[i]? =
        some { r with signOutAt := some (r.signInAt + autoSignOutMs),
                      autoSignedOut := true }) := by
  have he := initSignInFlow_eq stored tInit f l a rv od tSubmit freshId
    h1 h2 h3 h4
  refine ⟨he, ?_⟩
  intro i r hg ho hd
  have hlt : i < stored.length := by
    rcases List.getElem?_eq_some.mp hg with ⟨hl, -⟩
    exact hl
  rw [he]
  rw [List.getElem?_append,
    if_pos (by rw [applyAutoCloseList, List.length_map]; exact hlt)]
  rw [applyAutoCloseList, List.getElem?_map, hg]
  simp only [Option.map_some']
  simp [closeOne, ho, hd]

/-- Counterexample to C9 as stated: recA's 8-hour deadline has passed at
    submission time, the sign-in succeeds, and yet recA is still open in
    the persisted result, because the page ran the auto-close pass only at
    initialization time 1000, before the deadline. -/
theorem signIn_autoclose_at_init_cex :
    recA.signOutAt = none ∧
    recA.signInAt + autoSignOutMs ≤ 28801000 ∧
    (initSignInFlow [recA] 1000 (("Al").toList) (("Bo").toList)
      (("X").toList) (("Meeting").toList) [] 28801000 9).2 =
      Except.ok (newRecord (("Al").toList) (("Bo").toList) (("X").toList)
        (("Meeting").toList) [] 28801000 9) ∧
    (initSignInFlow [recA] 1000 (("Al").toList) (("Bo").toList)
      (("X").toList) (("Meeting").toList) [] 28801000 9).1[0]? =
      some recA := by
  decide

/-- Witness for C9 (amended): a record one millisecond past its deadline
    at page initialization is closed by a later successful sign-in. -/
theorem signIn_autoclose_at_init_inst :
    (initSignInFlow [recA] 28800001 (("Al").toList) (("Bo").toList)
      (("X").toList) (("Meeting").toList) [] 28900000 9).1[0]? =
      some { recA with signOutAt := some (recA.signInAt + autoSignOutMs),
                       autoSignedOut := true } :=
  (signIn_autoclose_at_init [recA] 28800001 (("Al").toList) (("Bo").toList)
    (("X").toList) (("Meeting").toList) [] 28900000 9
    (by decide) (by decide) (by decide) (by decide)).2 0 recA
    (by decide) (by decide) (by decide)

theorem splitWs_ne_nil (s : Str) : splitWs s ≠ [] := by
  induction s with
  | nil => simp [splitWs]
  | cons c cs ih =>
    cases cs with
    | nil =>
      rw [splitWs]
      by_cases h : isWs c
      · rw [if_pos h]
        simp
      · rw [if_neg h]
        simp
    | cons d ds =>
      rw [splitWs]
      by_cases h : isWs c
      · rw [if_pos h]
        by_cases hd : isWs d
        · rw [if_pos hd]
          exact ih
        · rw [if_neg hd]
          simp
      · rw [if_neg h]
        cases hs : splitWs (d :: ds) with
        | nil => exact absurd hs ih
        | cons t ts => simp [hs, List.modifyHead]

theorem joinWith_cons_head (sep : Str) (c : Char) (t : Str)
    (ts : List Str) :
    joinWith sep ((c :: t) :: ts) = c :: joinWith sep (t :: ts) := by
  cases ts with
  | nil => rfl
  | cons u us => rfl

theorem joinWith_splitWs (s : Str) :
    joinWith [' '] (splitWs s) = collapseRunsToSpace s := by
  induction s with
  | nil => rfl
  | cons c cs ih =>
    cases cs with
    | nil =>
      rw [splitWs, collapseRunsToSpace]
      by_cases h : isWs c
      · rw [if_pos h, if_pos h]
        rfl
      · rw [if_neg h, if_neg h]
        rfl
    | cons d ds =>
      rw [splitWs, collapseRunsToSpace]
      by_cases h : isWs c
      · rw [if_pos h, if_pos h]
        by_cases hd : isWs d
        · rw [if_pos hd, if_pos hd]
          exact ih
        · rw [if_neg hd, if_neg hd]
          have hne := splitWs_ne_nil (d :: ds)
          cases hs : splitWs (d :: ds) with
          | nil => exact absurd hs hne
          | cons t ts =>
            rw [← ih, hs]
            rfl
      · rw [if_neg h, if_neg h]
        have hne := splitWs_ne_nil (d :: ds)
        cases hs : splitWs (d :: ds) with
        | nil => exact absurd hs hne
        | cons t ts =>
          show joinWith [' '] ((c :: t) :: ts) =
            c :: collapseRunsToSpace (d :: ds)
          rw [joinWith_cons_head, ← hs, ih]

theorem trimStr_eq_nil_of_all_ws (s : Str) (h : s.all isWs = true) :
    trimStr s = [] := by
  rw [List.all_eq_true] at h
  have h1 : s.dropWhile isWs = [] :=
    List.dropWhile_eq_nil_iff.mpr fun x hx => h x hx
  rw [trimStr, h1]
  rfl

/-- Claim C5: normalizeName computes exactly what the spec describes —
    trim, lower-case, collapse every internal whitespace run to one
    space; it is total and pure, the empty or all-whitespace input yields
    the empty key, and makeNameKey first last is normalizeName of
    first ++ " " ++ last. -/
theorem normalizeName_spec (s : Str) :
    normalizeName s = specNormalize s ∧
    (s.all isWs = true → normalizeName s = []) ∧
    (∀ f l : Str, makeNameKey f l = normalizeName (f ++ ' ' :: l)) := by
  refine ⟨joinWith_splitWs _, ?_, fun f l => rfl⟩
  intro h
  rw [normalizeName, trimStr_eq_nil_of_all_ws s h]
  rfl

/-- Witness for C5: normalizeName on a concrete messy input agrees with
    the spec-worded normalizer, and an all-whitespace input yields the
    empty key. -/
theorem normalizeName_spec_inst :
    normalizeName (("  JaNe \t  DOE ").toList) =
      specNormalize (("  JaNe \t  DOE ").toList) ∧
    normalizeName (("   ").toList) = [] :=
  ⟨(normalizeName_spec (("  JaNe \t  DOE ").toList)).1,
   (normalizeName_spec (("   ").toList)).2.1 (by decide)⟩

theorem replaceQuotes_eq_flatMap (s : Str) :
    replaceQuotes s =
      s.flatMap (fun c => if c = '"' then ['"', '"'] else [c]) := by
  induction s with
  | nil => rfl
  | cons c cs ih =>
    rw [replaceQuotes, List.flatMap_cons]
    by_cases h : c = '"'
    · rw [if_pos (beq_iff_eq.mpr h), if_pos h, ih]
      rfl
    · rw [if_neg (by simpa using h), if_neg h, ih]
      rfl

/-- Claim C6: toCSV emits exactly the specified header line, then one row
    per record in stored order; each row joins the eight fields with
    commas, each field individually escaped; escaping wraps the field in
    double quotes with internal double quotes doubled exactly when the
    field contains a comma, a double quote or a newline, and leaves it
    verbatim otherwise; the auto-signed-out field is the literal YES when
    autoSignedOut is true and NO otherwise. -/
theorem toCSV_spec (rs : List VisitRecord) (s : Str) :
    toCSV rs =
      joinWith (("\n").toList)
        ((("first_name,last_name,agency_institution,reason,other_details,sign_in,sign_out,auto_signed_out").toList) ::
          rs.map csvRow) ∧
    (∀ r : VisitRecord, csvRow r =
      joinWith ((",").toList)
        [escapeCSV r.firstName, escapeCSV r.lastName, escapeCSV r.agency,
         escapeCSV r.reason, escapeCSV r.otherDetails,
         escapeCSV (isoOfMs r.signInAt), escapeCSV (signOutField r),
         escapeCSV (if r.autoSignedOut then ("YES").toList
                    else ("NO").toList)]) ∧
    (s.any (fun c => c == '"' || c == ',' || c == '\n') = false →
      escapeCSV s = s) ∧
    (s.any (fun c => c == '"' || c == ',' || c == '\n') = true →
      escapeCSV s = '"' ::
        (s.flatMap (fun c => if c = '"' then ['"', '"'] else [c])) ++
        ['"']) := by
  refine ⟨rfl, fun r => rfl, ?_, ?_⟩
  · intro h
    rw [escapeCSV, if_neg (by simp [h])]
  · intro h
    rw [escapeCSV, if_pos h, replaceQuotes_eq_flatMap]

/-- Witness for C6: the spec's escaping test vector — a field containing
    a comma, quotes and a newline is wrapped with its quotes doubled — and
    a plain field is left verbatim. -/
theorem toCSV_spec_inst :
    escapeCSV (("a,\"b\"\nc").toList) =
      '"' :: ((("a,\"b\"\nc").toList).flatMap
        (fun c => if c = '"' then ['"', '"'] else [c])) ++ ['"'] ∧
    escapeCSV (("plain").toList) = ("plain").toList :=
  ⟨(toCSV_spec [] (("a,\"b\"\nc").toList)).2.2.2 (by decide),
   (toCSV_spec [] (("plain").toList)).2.2.1 (by decide)⟩

/-- Claim C8 (amended): listing first applies the auto-close pass and
    reverses the collection (newest first); the search text is trimmed and
    lower-cased, an empty result of that keeps every record, and otherwise
    a record is kept iff that trimmed lower-cased text is a substring of
    the lower-cased space-joined concatenation of its first name, last
    name, agency, reason and other-details. -/
theorem renderList_spec (stored : List VisitRecord) (text : Str)
    (now : Nat) :
    (lowerStr (trimStr text) = [] →
      renderList stored text now = (applyAutoCloseList stored now).reverse) ∧
    (lowerStr (trimStr text) ≠ [] →
      renderList stored text now =
        (applyAutoCloseList stored now).reverse.filter
          (fun r => hasSub (lowerStr (hayOf r)) (lowerStr (trimStr text)))) ∧
    (∀ r : VisitRecord, r ∈ renderList stored text now ↔
      r ∈ (applyAutoCloseList stored now).reverse ∧
      (lowerStr (trimStr text) ≠ [] →
        hasSub (lowerStr (hayOf r)) (lowerStr (trimStr text)) = true)) := by
  refine ⟨?_, ?_, ?_⟩
  · intro h
    rw [renderList, ensureAutoSignOut_fst, if_pos h]
  · intro h
    rw [renderList, ensureAutoSignOut_fst, if_neg h]
  · intro r
    by_cases h : lowerStr (trimStr text) = []
    · rw [renderList, ensureAutoSignOut_fst, if_pos h]
      simp [h]
    · rw [renderList, ensureAutoSignOut_fst, if_neg h]
      rw [List.mem_filter]
      simp [h]

/-- Witness for C8 (amended): a concrete listing with an empty and with a
    non-empty query. -/
theorem renderList_spec_inst :
    renderList [recA, recB] ((" ").toList) 2000 =
      (applyAutoCloseList [recA, recB] 2000).reverse ∧
    renderList [recA, recB] ((" Acme ").toList) 2000 =
      (applyAutoCloseList [recA, recB] 2000).reverse.filter
        (fun r => hasSub (lowerStr (hayOf r))
          (lowerStr (trimStr ((" Acme ").toList)))) :=
  ⟨(renderList_spec [recA, recB] ((" ").toList) 2000).1 (by decide),
   (renderList_spec [recA, recB] ((" Acme ").toList) 2000).2.1 (by decide)⟩

/-- Counterexample to C8 as stated: the non-empty filter text " abc " is
    not a case-insensitive substring of recD's concatenated fields (the
    haystack starts with "abc", with no leading space), yet the code keeps
    recD, because it trims the filter text to "abc" before matching. -/
theorem renderList_filter_cex :
    ((" abc ").toList ≠ [] ∧
     claimFilterPred ((" abc ").toList) recD = false ∧
     recD ∈ renderList [recD] ((" abc ").toList) 0) := by
  decide
